import Mathlib

/-!
Verification development for the Ghost Job Detector backend.

This file gives a shallow embedding, in Lean, of the data model and the
storage/statistics operations of the repository's Python backend:

* `backend/database/models.py`   — pydantic validation models,
* `backend/database/manager.py`  — the relational (SQLite) store,
* `backend/vercel_edge_manager.py` — the FlatMap (Vercel Edge Config) store,
* `backend/analysis_service.py` / `backend/vercel_analysis_service.py`
  — platform detection and the service-level statistics variant.

Conventions of the embedding:

* Python `float` probabilities are modelled as `ℚ` (exact arithmetic; all
  constants appearing in the code and the claims are decimal literals, so
  every comparison performed by the code is faithfully reproduced).
* Timestamps (`datetime.now()`, `analysis_date`, …) are modelled as `Nat`
  instants supplied explicitly as a `now` parameter; the code reads the
  clock, the embedding threads it.
* Python `dict`s (insertion-ordered, unique keys) are modelled as
  association lists `List (String × α)` with insertion-order preserving
  update (`alSet`).
* Python's stable `sorted(..., reverse=True)` is modelled by
  `List.insertionSort` with the corresponding non-strict descending
  relation, which has the same stability behaviour.
* SQLite tables are modelled as lists of row structures; autoincrement ids
  are threaded through the state.
-/

/-! ## Generic helpers -/

/-- Substring test on character lists: does `needle` occur contiguously in
`hay`?  Models Python's `in` operator on strings. -/
def charsContains (hay needle : List Char) : Bool :=
  match hay with
  | [] => needle.isEmpty
  | _ :: t => needle.isPrefixOf hay || charsContains t needle

/-- Substring test on strings, modelling Python `needle in hay`. -/
def strContains (hay needle : String) : Bool :=
  charsContains hay.data needle.data

/-- Split `hay` at the first occurrence of `sep`, returning the part before
and the part after (the separator removed).  `none` when `sep` does not
occur.  Used to model `urllib.parse.urlparse`'s netloc/path split. -/
def splitAtSub? (sep : List Char) : List Char → Option (List Char × List Char)
  | [] => if sep.isEmpty then some ([], []) else none
  | c :: t =>
    if sep.isPrefixOf (c :: t) then some ([], (c :: t).drop sep.length)
    else (splitAtSub? sep t).map (fun p => (c :: p.1, p.2))

/-- Lower-casing of a string, character by character (models `str.lower()`
for the ASCII hostnames this code handles). -/
def pyLower (s : String) : String :=
  String.mk (s.data.map Char.toLower)

/-! ### Executable rational arithmetic

The embedding computes with `ℚ`.  The library's `Rat.add`/`mul`/`inv` are
`@[irreducible]`, which blocks evaluation inside `decide`; the following
equivalents are written with `Rat.divInt` on numerators and denominators,
which evaluates, and are proved equal to the library operations below. -/

/-- Addition of rationals, in evaluable form. -/
def qAdd (a b : ℚ) : ℚ :=
  Rat.divInt (a.num * b.den + b.num * a.den) (a.den * b.den)

/-- Multiplication of rationals, in evaluable form. -/
def qMul (a b : ℚ) : ℚ := Rat.divInt (a.num * b.num) (a.den * b.den)

/-- Division of rationals, in evaluable form (`x / 0 = 0`, as in the
library; the code only divides by nonzero counts). -/
def qDiv (a b : ℚ) : ℚ := Rat.divInt (a.num * b.den) (a.den * b.num)

/-- The rational value of a natural number count. -/
def qOfNat (n : Nat) : ℚ := Rat.divInt (Int.ofNat n) 1

/-- Sum of a list of rationals (Python `sum`). -/
def qSum (l : List ℚ) : ℚ := l.foldr qAdd 0

/-- Binary minimum (Python `min(a, b)`). -/
def qMinB (a b : ℚ) : ℚ := if decide (a ≤ b) then a else b

/-- Binary maximum (Python `max(a, b)`). -/
def qMaxB (a b : ℚ) : ℚ := if decide (b ≤ a) then a else b

/-! ## Platform detection

Embeds `AnalysisService.detect_platform` (`backend/analysis_service.py`,
lines 28–45); `VercelAnalysisService.detect_platform` is textually the same
function, so one definition embeds both. -/

/-- The `(hostname, path)` pair that `urllib.parse.urlparse` produces for a
URL of the usual `scheme://host/path…` shape: the netloc is everything
between `://` and the first following `/`, the path is the rest (with its
leading slash); a URL without `://` parses as all-path. -/
def urlHostPath (url : String) : String × String :=
  match splitAtSub? "://".data url.data with
  | none => ("", url)
  | some (_, rest) =>
    match splitAtSub? "/".data rest with
    | none => (String.mk rest, "")
    | some (h, p) => (String.mk h, String.mk ('/' :: p))

/-- The lower-cased hostname of a URL (`parsed.hostname.lower()`). -/
def urlHostname (url : String) : String := pyLower (urlHostPath url).1

/-- The path component of a URL (`parsed.path`). -/
def urlPath (url : String) : String := (urlHostPath url).2

/-- `AnalysisService.detect_platform`: the `if/elif` chain over hostname and
path substrings. -/
def detect_platform (url : String) : String :=
  let hostname := urlHostname url
  let path := urlPath url
  if strContains hostname "linkedin" then "linkedin"
  else if strContains hostname "indeed" then "indeed"
  else if strContains hostname "glassdoor" then "glassdoor"
  else if strContains hostname "careers." || strContains path "/careers"
      || strContains path "/jobs" then "company"
  else "other"

/-! ## Entity schema and validation (`backend/database/models.py`)

pydantic models with `Field(..., ge=0.0, le=1.0)` range constraints are
embedded as smart constructors returning `Option`: `none` is the
`ValidationError` raised before anything is persisted. -/

/-- The payload of `JobSearchCreate` (`models.py`, lines 34–44).  Values of
this type exist only when validation succeeded, i.e. they are produced by
`mkJobSearchCreate`. -/
structure JobSearchCreate where
  url : String
  platform : String
  job_title : String
  company : String
  location : Option String
  ghost_probability : ℚ
  confidence : ℚ
  parser_used : Option String
  extraction_method : Option String
  processing_time_ms : Option Int
deriving DecidableEq

/-- Constructing a `JobSearchCreate`: pydantic enforces
`ghost_probability ∈ [0,1]` and `confidence ∈ [0,1]` (`Field(ge=0.0, le=1.0)`);
out-of-range input raises `ValidationError`, modelled as `none`. -/
def mkJobSearchCreate (url platform job_title company : String)
    (location : Option String) (ghost_probability confidence : ℚ)
    (parser_used extraction_method : Option String)
    (processing_time_ms : Option Int) : Option JobSearchCreate :=
  if decide (0 ≤ ghost_probability) && decide (ghost_probability ≤ 1)
      && decide (0 ≤ confidence) && decide (confidence ≤ 1) then
    some { url, platform, job_title, company, location, ghost_probability,
           confidence, parser_used, extraction_method, processing_time_ms }
  else none

/-- `KeyFactorCreate` (`models.py`, lines 46–50). -/
structure KeyFactorCreate where
  factor_type : String
  description : String
  severity : Option ℚ
  weight : Option ℚ
deriving DecidableEq

/-- `ParsingMetadataCreate` (`models.py`, lines 52–57).  The JSON payloads
(`validation_results`, `confidence_scores`) are carried opaquely as their
serialized strings; the code never inspects them after `json.dumps`. -/
structure ParsingMetadataCreate where
  raw_title : Option String
  structured_data_found : Bool
  meta_tags_count : Int
  validation_results : Option String
  confidence_scores : Option String
deriving DecidableEq

/-- `AnalysisFilters` (`models.py`, lines 133–147). -/
structure AnalysisFilters where
  platform : Option String
  company : Option String
  min_ghost_probability : Option ℚ
  max_ghost_probability : Option ℚ
  start_date : Option Nat
  end_date : Option Nat
  risk_level : Option String
deriving DecidableEq

/-- `Field(None, ge=0.0, le=1.0)`: an absent optional passes, a present one
must lie in `[0,1]`. -/
def unitIntervalB (o : Option ℚ) : Bool :=
  match o with
  | none => true
  | some v => decide (0 ≤ v) && decide (v ≤ 1)

/-- The `validate_probability_range` validator (`models.py`, lines 142–147):
when both bounds are present and `max < min`, validation fails. -/
def rangeOkB (mn mx : Option ℚ) : Bool :=
  match mn, mx with
  | some a, some b => !decide (b < a)
  | _, _ => true

/-- Constructing an `AnalysisFilters`: per-field `[0,1]` bounds plus the
`validate_probability_range` check; `none` is the `ValidationError`. -/
def mkAnalysisFilters (platform company : Option String) (mn mx : Option ℚ)
    (start_date end_date : Option Nat) (risk_level : Option String) :
    Option AnalysisFilters :=
  if unitIntervalB mn && unitIntervalB mx && rangeOkB mn mx then
    some { platform, company, min_ghost_probability := mn,
           max_ghost_probability := mx, start_date, end_date, risk_level }
  else none

/-! ## Relational store (`backend/database/manager.py`)

SQLite tables become lists of rows; the autoincrement counters are part of
the state.  The `companies` table is maintained by database triggers that
live in `schema.sql` (not part of the sources); the manager only reads it,
and so does this embedding. -/

/-- A row of the `job_searches` table. -/
structure JobSearchRow where
  id : Nat
  url : String
  platform : String
  job_title : String
  company : String
  location : Option String
  ghost_probability : ℚ
  confidence : ℚ
  parser_used : Option String
  extraction_method : Option String
  processing_time_ms : Option Int
  analysis_date : Nat
deriving DecidableEq

/-- A row of the `key_factors` table. -/
structure KeyFactorRow where
  id : Nat
  search_id : Nat
  factor_type : String
  description : String
  severity : Option ℚ
  weight : Option ℚ
deriving DecidableEq

/-- A row of the `parsing_metadata` table. -/
structure ParsingMetadataRow where
  id : Nat
  search_id : Nat
  raw_title : Option String
  structured_data_found : Bool
  meta_tags_count : Int
  validation_results : Option String
  confidence_scores : Option String
deriving DecidableEq

/-- A row of the `companies` table (the aggregate fields the manager reads). -/
structure CompanyRow where
  company_name : String
  total_posts : Nat
  ghost_posts : Nat
  avg_ghost_probability : ℚ
  min_ghost_probability : ℚ
  max_ghost_probability : ℚ
  risk_level : String
deriving DecidableEq

/-- The relational database state. -/
structure DBState where
  job_searches : List JobSearchRow
  key_factors : List KeyFactorRow
  parsing_metadata : List ParsingMetadataRow
  companies : List CompanyRow
  next_search_id : Nat
  next_factor_id : Nat
  next_metadata_id : Nat
deriving DecidableEq

/-- `DatabaseManager.create_job_search` (`manager.py`, lines 46–118).

The job-search `INSERT` is the first statement of the transaction, so a
`UNIQUE constraint failed` on `url` fires before any child row is written;
the handler rolls back and answers with the looked-up existing id (`None`
if the lookup finds nothing).  On the fresh path the row, its key factors
and the optional parsing metadata are inserted and committed together. -/
def create_job_search (jd : JobSearchCreate) (factors : List KeyFactorCreate)
    (pm : Option ParsingMetadataCreate) (now : Nat) (st : DBState) :
    Option Nat × DBState :=
  if st.job_searches.any (fun r => r.url == jd.url) then
    ((st.job_searches.find? (fun r => r.url == jd.url)).map (fun r => r.id), st)
  else
    let sid := st.next_search_id
    let row : JobSearchRow :=
      { id := sid, url := jd.url, platform := jd.platform,
        job_title := jd.job_title, company := jd.company,
        location := jd.location, ghost_probability := jd.ghost_probability,
        confidence := jd.confidence, parser_used := jd.parser_used,
        extraction_method := jd.extraction_method,
        processing_time_ms := jd.processing_time_ms, analysis_date := now }
    let kfRows : List KeyFactorRow := factors.enum.map (fun fi =>
      { id := st.next_factor_id + fi.1, search_id := sid,
        factor_type := fi.2.factor_type, description := fi.2.description,
        severity := fi.2.severity, weight := fi.2.weight })
    let pmRows : List ParsingMetadataRow :=
      match pm with
      | none => []
      | some m =>
        [{ id := st.next_metadata_id, search_id := sid,
           raw_title := m.raw_title,
           structured_data_found := m.structured_data_found,
           meta_tags_count := m.meta_tags_count,
           validation_results := m.validation_results,
           confidence_scores := m.confidence_scores }]
    (some sid,
     { st with
       job_searches := st.job_searches ++ [row],
       key_factors := st.key_factors ++ kfRows,
       parsing_metadata := st.parsing_metadata ++ pmRows,
       next_search_id := sid + 1,
       next_factor_id := st.next_factor_id + kfRows.length,
       next_metadata_id := st.next_metadata_id + pmRows.length })

/-- Python's stable `sorted` / SQL `ORDER BY`, modelled by insertion sort
with a boolean "may come before" comparison. -/
def pySortBy {α : Type} (cmp : α → α → Bool) (l : List α) : List α :=
  List.insertionSort (fun a b => cmp a b = true) l

/-- Risk-level of a job's company under the `LEFT JOIN companies` of
`get_job_searches`: `NULL` (no company row) matches nothing. -/
def companyRisk (companies : List CompanyRow) (name : String) : Option String :=
  (companies.find? (fun c => c.company_name == name)).map (fun c => c.risk_level)

/-- The `WHERE` clause built in `get_job_searches` (`manager.py`,
lines 183–216): all present filters are conjoined.  `LIKE '%x%'` on SQLite
is case-insensitive for ASCII, hence the lower-cased substring test. -/
def matchesFilters (f : AnalysisFilters) (companies : List CompanyRow)
    (r : JobSearchRow) : Bool :=
  (match f.platform with | none => true | some p => r.platform == p) &&
  (match f.company with
   | none => true
   | some c => strContains (pyLower r.company) (pyLower c)) &&
  (match f.min_ghost_probability with
   | none => true
   | some m => decide (m ≤ r.ghost_probability)) &&
  (match f.max_ghost_probability with
   | none => true
   | some m => decide (r.ghost_probability ≤ m)) &&
  (match f.start_date with
   | none => true
   | some d => decide (d ≤ r.analysis_date)) &&
  (match f.end_date with
   | none => true
   | some d => decide (r.analysis_date ≤ d)) &&
  (match f.risk_level with
   | none => true
   | some rl =>
     match companyRisk companies r.company with
     | some cr => cr == rl
     | none => false)

/-- The `ORDER BY` allow-list of `get_job_searches` (`manager.py`, line 229). -/
def valid_order_columns : List String :=
  ["analysis_date", "ghost_probability", "company", "job_title"]

/-- Ascending comparison on the selected order column (with the source's
fallback to `analysis_date` applied by the caller). -/
def orderKeyLE (order_by : String) (a b : JobSearchRow) : Bool :=
  if order_by == "ghost_probability" then
    decide (a.ghost_probability ≤ b.ghost_probability)
  else if order_by == "company" then decide (a.company ≤ b.company)
  else if order_by == "job_title" then decide (a.job_title ≤ b.job_title)
  else decide (a.analysis_date ≤ b.analysis_date)

/-- The page object returned by `get_job_searches`; each item carries its
key factors, as in the source's `JobAnalysisDetail`. -/
structure AnalysisHistoryPage where
  total_count : Nat
  page : Nat
  page_size : Nat
  analyses : List (JobSearchRow × List KeyFactorRow)
deriving DecidableEq

/-- `DatabaseManager.get_job_searches` (`manager.py`, lines 170–269):
filter, count (`COUNT(DISTINCT js.id)` — ids are unique, so the length of
the filtered list), order with allow-list fallback, then
`LIMIT page_size OFFSET (page-1)*page_size`. -/
def get_job_searches (st : DBState) (f : Option AnalysisFilters)
    (page page_size : Nat) (order_by : String) (order_desc : Bool) :
    AnalysisHistoryPage :=
  let filtered :=
    match f with
    | none => st.job_searches
    | some fl => st.job_searches.filter (matchesFilters fl st.companies)
  let ob := if valid_order_columns.contains order_by then order_by
            else "analysis_date"
  let ordered := pySortBy
    (fun a b => if order_desc then orderKeyLE ob b a else orderKeyLE ob a b)
    filtered
  let offset := (page - 1) * page_size
  { total_count := filtered.length, page, page_size,
    analyses := ((ordered.drop offset).take page_size).map (fun js =>
      (js, st.key_factors.filter (fun k => k.search_id == js.id))) }

/-! ## Statistics (`DatabaseManager.get_analysis_stats`, `manager.py` 303–391) -/

/-- Round-half-to-even on rationals (the semantics of Python's `round`).
`Int.fdiv num den` is the mathematical floor of the rational. -/
def roundHalfEven (x : ℚ) : ℤ :=
  let f := Int.fdiv x.num x.den
  let r := qAdd x (Rat.divInt (-f) 1)
  if decide (r < mkRat 1 2) then f
  else if decide (mkRat 1 2 < r) then f + 1
  else if f % 2 = 0 then f else f + 1

/-- Python `round(x, 3)`. -/
def pyRound3 (x : ℚ) : ℚ :=
  qDiv (Rat.divInt (roundHalfEven (qMul x (qOfNat 1000))) 1) (qOfNat 1000)

/-- Mean of a list of rationals (SQL `AVG`, Python `sum/len`); `0` on the
empty list, matching the `stats[1] or 0` treatment of SQL `NULL`. -/
def qAvg (l : List ℚ) : ℚ :=
  if l.isEmpty then 0 else qDiv (qSum l) (qOfNat l.length)

/-- An entry of the `top_ghost_companies` output list. -/
structure TopCompanyEntry where
  company : String
  avg_ghost_probability : ℚ
  total_posts : Nat
  ghost_posts : Nat
deriving DecidableEq

/-- `ORDER BY avg_ghost_probability DESC, total_posts DESC` as a "may come
before" comparison on company rows. -/
def topCompaniesRel (a b : CompanyRow) : Bool :=
  decide (b.avg_ghost_probability < a.avg_ghost_probability) ||
  (a.avg_ghost_probability == b.avg_ghost_probability
    && decide (b.total_posts ≤ a.total_posts))

/-- The top-ghost-companies query of `DatabaseManager.get_analysis_stats`
(`manager.py`, lines 326–332): companies with `total_posts >= 2`, ordered by
average descending then post count descending, first 10 rows. -/
def db_top_ghost_companies (companies : List CompanyRow) : List CompanyRow :=
  (pySortBy topCompaniesRel
    (companies.filter (fun c => decide (2 ≤ c.total_posts)))).take 10

/-- The top-companies query of `AnalysisService.get_analysis_stats`
(`analysis_service.py`, lines 352–366): `ORDER BY avg_ghost_probability DESC
LIMIT 5` — no minimum-posts restriction and no tie-break column. -/
def service_top_ghost_companies (companies : List CompanyRow) : List CompanyRow :=
  (pySortBy (fun a b => decide (b.avg_ghost_probability ≤ a.avg_ghost_probability))
    companies).take 5

/-- The statistics record assembled by `DatabaseManager.get_analysis_stats`.
The trend entries are `(day, count, rounded average)`. -/
structure AnalysisStats where
  total_analyses : Nat
  avg_ghost_probability : ℚ
  high_risk_count : Nat
  medium_risk_count : Nat
  low_risk_count : Nat
  top_ghost_companies : List TopCompanyEntry
  platform_breakdown : List (String × Nat)
  recent_trend : List (Nat × Nat × ℚ)
deriving DecidableEq

/-- The risk-bucket `CASE` conditions of the basic-stats query
(`manager.py`, lines 312–321): `>= 0.67` high, `>= 0.34 AND < 0.67` medium,
`< 0.34` low. -/
def highRiskB (p : ℚ) : Bool := decide (mkRat 67 100 ≤ p)

/-- Medium bucket condition. -/
def mediumRiskB (p : ℚ) : Bool := decide (mkRat 34 100 ≤ p) && decide (p < mkRat 67 100)

/-- Low bucket condition. -/
def lowRiskB (p : ℚ) : Bool := decide (p < mkRat 34 100)

/-- The `GROUP BY DATE(analysis_date) ORDER BY date DESC LIMIT 7` trend
query; dates are modelled at day granularity, so `DATE()` is the identity. -/
def dbRecentTrend (rows : List JobSearchRow) : List (Nat × Nat × ℚ) :=
  let dates := (rows.map (fun r => r.analysis_date)).dedup
  ((pySortBy (fun a b => decide (b ≤ a)) dates).take 7).map (fun d =>
    let grp := rows.filter (fun r => r.analysis_date == d)
    (d, grp.length, pyRound3 (qAvg (grp.map (fun r => r.ghost_probability)))))

/-- `DatabaseManager.get_analysis_stats` (`manager.py`, lines 303–391):
bucket counts and average over the `days_back` window, the `total_posts >= 2`
top-companies ranking, per-platform counts, and the 7-day trend. -/
def get_analysis_stats (st : DBState) (now days_back : Nat) : AnalysisStats :=
  let cutoff := now - days_back
  let recent := st.job_searches.filter (fun r => decide (cutoff ≤ r.analysis_date))
  let probs := recent.map (fun r => r.ghost_probability)
  { total_analyses := recent.length,
    avg_ghost_probability := pyRound3 (qAvg probs),
    high_risk_count := probs.countP highRiskB,
    medium_risk_count := probs.countP mediumRiskB,
    low_risk_count := probs.countP lowRiskB,
    top_ghost_companies := (db_top_ghost_companies st.companies).map (fun c =>
      { company := c.company_name,
        avg_ghost_probability := pyRound3 c.avg_ghost_probability,
        total_posts := c.total_posts, ghost_posts := c.ghost_posts }),
    platform_breakdown := ((recent.map (fun r => r.platform)).dedup).map
      (fun p => (p, (recent.filter (fun r => r.platform == p)).length)),
    recent_trend :=
      dbRecentTrend (st.job_searches.filter (fun r => decide (now - 7 ≤ r.analysis_date))) }

/-! ## FlatMap store (`backend/vercel_edge_manager.py`)

The Edge Config document is a bundle of sibling maps keyed by entity id;
Python `dict`s become insertion-ordered association lists. -/

/-- Dictionary lookup (`d[k]` / `d.get(k)`). -/
def alGet {α : Type} (l : List (String × α)) (k : String) : Option α :=
  (l.find? (fun p => p.1 == k)).map (fun p => p.2)

/-- Is a key present (`k in d`)? -/
def alHas {α : Type} (l : List (String × α)) (k : String) : Bool :=
  l.any (fun p => p.1 == k)

/-- Dictionary assignment `d[k] = v`: in-place overwrite when the key
exists, append otherwise (Python dicts preserve insertion order). -/
def alSet {α : Type} (l : List (String × α)) (k : String) (v : α) :
    List (String × α) :=
  if alHas l k then l.map (fun p => if p.1 == k then (k, v) else p)
  else l ++ [(k, v)]

/-- Dictionary deletion `del d[k]`. -/
def alErase {α : Type} (l : List (String × α)) (k : String) :
    List (String × α) :=
  l.filter (fun p => !(p.1 == k))

/-- Minimum of a list (Python `min`), `none` on the empty list. -/
def listMin? : List ℚ → Option ℚ
  | [] => none
  | x :: xs =>
    some (match listMin? xs with
          | none => x
          | some m => qMinB x m)

/-- Maximum of a list (Python `max`), `none` on the empty list. -/
def listMax? : List ℚ → Option ℚ
  | [] => none
  | x :: xs =>
    some (match listMax? xs with
          | none => x
          | some m => qMaxB x m)

/-- A `job_searches` entry of the Edge Config document
(`save_job_analysis`, lines 97–113). -/
structure EdgeJobSearch where
  id : String
  url : String
  platform : String
  job_title : String
  company : String
  location : Option String
  ghost_probability : ℚ
  confidence : ℚ
  parser_used : String
  extraction_method : String
  processing_time_ms : Int
  analysis_date : Nat
  created_at : Nat
  updated_at : Nat
  status : String
deriving DecidableEq

/-- A `key_factors` entry (lines 119–130). -/
structure EdgeKeyFactor where
  id : String
  search_id : String
  factor_type : String
  description : String
  severity : ℚ
  weight : ℚ
  created_at : Nat
deriving DecidableEq

/-- A `parsing_metadata` entry (lines 135–145); the `confidence_scores`
mapping is carried opaquely. -/
structure EdgeParsingMetadata where
  id : String
  search_id : String
  raw_title : Option String
  structured_data_found : Bool
  meta_tags_count : Int
  confidence_scores : Option String
  extraction_timestamp : Nat
deriving DecidableEq

/-- A `companies` entry (lines 149–186). -/
structure EdgeCompany where
  company_name : String
  total_posts : Nat
  ghost_posts : Nat
  avg_ghost_probability : ℚ
  min_ghost_probability : ℚ
  max_ghost_probability : ℚ
  first_seen : Nat
  last_updated : Nat
  platforms_seen : List String
  risk_level : String
deriving DecidableEq

/-- The whole Edge Config document (`get_all_data`, lines 70–85). -/
structure EdgeData where
  job_searches : List (String × EdgeJobSearch)
  companies : List (String × EdgeCompany)
  key_factors : List (String × EdgeKeyFactor)
  parsing_metadata : List (String × EdgeParsingMetadata)
  stats_total : Nat
  stats_last_updated : Nat
deriving DecidableEq

/-- The empty document returned when no data exists yet. -/
def emptyEdgeData : EdgeData :=
  { job_searches := [], companies := [], key_factors := [],
    parsing_metadata := [], stats_total := 0, stats_last_updated := 0 }

/-- The `parsing_metadata` part of the `job_data` input dict; each field is
read with `.get` and a default. -/
structure EdgePMInput where
  raw_title : Option String
  structured_data_found : Option Bool
  meta_tags_count : Option Int
  confidence_scores : Option String
deriving DecidableEq

/-- The `job_data` input dict of `save_job_analysis`. -/
structure EdgeJobInput where
  platform : Option String
  job_title : Option String
  company : Option String
  location : Option String
  parsing_metadata : Option EdgePMInput
deriving DecidableEq

/-- An entry of `analysis['factors']`. -/
structure EdgeFactorInput where
  factor_type : Option String
  description : Option String
  severity : Option ℚ
  weight : Option ℚ
deriving DecidableEq

/-- The `analysis` input dict of `save_job_analysis`. -/
structure EdgeAnalysisInput where
  ghost_probability : ℚ
  confidence : ℚ
  processing_time_ms : Option Int
  factors : List EdgeFactorInput
deriving DecidableEq

/-- Recency comparison used by `_save_all_data`'s
`sorted(..., key=analysis_date, reverse=True)`. -/
def edgeRecencyRel (a b : String × EdgeJobSearch) : Bool :=
  decide (b.2.analysis_date ≤ a.2.analysis_date)

/-- `VercelEdgeManager._save_all_data` (lines 197–244): keep only the 100
most recent job searches by `analysis_date`, prune key factors and parsing
metadata whose parent fell out of the window, store companies and stats in
full. -/
def save_all_data (d : EdgeData) : EdgeData :=
  let recent := (pySortBy edgeRecencyRel d.job_searches).take 100
  { job_searches := recent,
    companies := d.companies,
    key_factors := d.key_factors.filter (fun kv =>
      recent.any (fun r => r.1 == kv.2.search_id)),
    parsing_metadata := d.parsing_metadata.filter (fun kv =>
      recent.any (fun r => r.1 == kv.1)),
    stats_total := d.stats_total,
    stats_last_updated := d.stats_last_updated }

/-- `VercelEdgeManager.save_job_analysis` (lines 87–195).  `now` is the
millisecond clock value: the analysis id is `str(int(time.time() * 1000))`
and every `datetime.now()` of the call is this instant.  There is no
URL-uniqueness check anywhere in the function.  The company record's
`total_posts`/`ghost_posts` are bumped incrementally, then
`avg/min/max_ghost_probability` and `risk_level` are recomputed from the
updated `job_searches` map; finally `_save_all_data` persists the pruned
document. -/
def save_job_analysis (job_url : String) (job_data : EdgeJobInput)
    (analysis : EdgeAnalysisInput) (now : Nat) (d : EdgeData) :
    String × EdgeData :=
  let analysis_id := toString now
  let platform := job_data.platform.getD "unknown"
  let cname := job_data.company.getD "Unknown Company"
  let js : EdgeJobSearch :=
    { id := analysis_id, url := job_url, platform,
      job_title := job_data.job_title.getD "Unknown Position",
      company := cname, location := job_data.location,
      ghost_probability := analysis.ghost_probability,
      confidence := analysis.confidence,
      parser_used := "MockParser", extraction_method := "simulation",
      processing_time_ms := analysis.processing_time_ms.getD 0,
      analysis_date := now, created_at := now, updated_at := now,
      status := "completed" }
  let jobs' := alSet d.job_searches analysis_id js
  let factorsData : List (String × EdgeKeyFactor) :=
    analysis.factors.enum.map (fun fi =>
      let fid := analysis_id ++ "_" ++ toString fi.1
      (fid, { id := fid, search_id := analysis_id,
              factor_type := fi.2.factor_type.getD "warning",
              description := fi.2.description.getD "",
              severity := fi.2.severity.getD (mkRat 1 2),
              weight := fi.2.weight.getD (mkRat 1 10), created_at := now }))
  let kf' := factorsData.foldl (fun acc kv => alSet acc kv.1 kv.2) d.key_factors
  let pm' :=
    match job_data.parsing_metadata with
    | none => d.parsing_metadata
    | some m =>
      alSet d.parsing_metadata analysis_id
        { id := analysis_id, search_id := analysis_id,
          raw_title := m.raw_title,
          structured_data_found := m.structured_data_found.getD false,
          meta_tags_count := m.meta_tags_count.getD 0,
          confidence_scores := m.confidence_scores,
          extraction_timestamp := now }
  let c0 : EdgeCompany :=
    match alGet d.companies cname with
    | some c => c
    | none =>
      { company_name := cname, total_posts := 0, ghost_posts := 0,
        avg_ghost_probability := 0, min_ghost_probability := 1,
        max_ghost_probability := 0, first_seen := now, last_updated := now,
        platforms_seen := [], risk_level := "unknown" }
  let c1 := { c0 with total_posts := c0.total_posts + 1,
                      platforms_seen := (c0.platforms_seen ++ [platform]).dedup }
  let c2 := if mkRat 67 100 ≤ analysis.ghost_probability then
              { c1 with ghost_posts := c1.ghost_posts + 1 }
            else c1
  let probs := ((jobs'.map (fun kv => kv.2)).filter
    (fun s => s.company == cname)).map (fun s => s.ghost_probability)
  let c3 :=
    if probs.isEmpty then c2
    else
      let avg := qDiv (qSum probs) (qOfNat probs.length)
      { c2 with avg_ghost_probability := avg,
                min_ghost_probability := (listMin? probs).getD c2.min_ghost_probability,
                max_ghost_probability := (listMax? probs).getD c2.max_ghost_probability,
                risk_level := if mkRat 67 100 ≤ avg then "high"
                              else if mkRat 34 100 ≤ avg then "medium"
                              else "low" }
  let companies' := alSet d.companies cname { c3 with last_updated := now }
  (analysis_id,
   save_all_data
     { job_searches := jobs', companies := companies', key_factors := kf',
       parsing_metadata := pm', stats_total := jobs'.length,
       stats_last_updated := now })

/-- `VercelEdgeManager.delete_analysis` (lines 334–361): remove the job
search, its key factors and its parsing metadata, refresh the `stats`
section, and persist.  The `companies` map is not touched. -/
def delete_analysis (analysis_id : String) (now : Nat) (d : EdgeData) :
    Bool × EdgeData :=
  if !alHas d.job_searches analysis_id then (false, d)
  else
    let jobs' := alErase d.job_searches analysis_id
    let kf' := d.key_factors.filter (fun kv => !(kv.2.search_id == analysis_id))
    let pm' := alErase d.parsing_metadata analysis_id
    (true,
     save_all_data
       { job_searches := jobs', companies := d.companies, key_factors := kf',
         parsing_metadata := pm', stats_total := jobs'.length,
         stats_last_updated := now })

/-- An entry of the FlatMap backend's `top_ghost_companies` output. -/
structure EdgeTopCompany where
  company : String
  avg_ghost_probability : ℚ
  total_posts : Nat
deriving DecidableEq

/-- `sorted(companies, key=(avg_ghost_probability, total_posts),
reverse=True)` as a "may come before" comparison. -/
def edgeTopRel (a b : EdgeCompany) : Bool :=
  decide (b.avg_ghost_probability < a.avg_ghost_probability) ||
  (a.avg_ghost_probability == b.avg_ghost_probability
    && decide (b.total_posts ≤ a.total_posts))

/-- The statistics record of `VercelEdgeManager.get_analysis_stats`. -/
structure EdgeStats where
  total_analyses : Nat
  avg_ghost_probability : ℚ
  high_risk_count : Nat
  medium_risk_count : Nat
  low_risk_count : Nat
  top_ghost_companies : List EdgeTopCompany
deriving DecidableEq

/-- `VercelEdgeManager.get_analysis_stats` (lines 285–332): bucket counts
over all stored job searches, and the five companies ranked by
`(avg_ghost_probability, total_posts)` descending — with no minimum-posts
restriction. -/
def edge_get_analysis_stats (d : EdgeData) : EdgeStats :=
  let jobs := d.job_searches.map (fun kv => kv.2)
  let companies := d.companies.map (fun kv => kv.2)
  if jobs.isEmpty then
    { total_analyses := 0, avg_ghost_probability := 0, high_risk_count := 0,
      medium_risk_count := 0, low_risk_count := 0, top_ghost_companies := [] }
  else
    let ghost_probs := jobs.map (fun j => j.ghost_probability)
    { total_analyses := jobs.length,
      avg_ghost_probability := pyRound3 (qDiv (qSum ghost_probs) (qOfNat ghost_probs.length)),
      high_risk_count := ghost_probs.countP highRiskB,
      medium_risk_count := ghost_probs.countP mediumRiskB,
      low_risk_count := ghost_probs.countP lowRiskB,
      top_ghost_companies := ((pySortBy edgeTopRel companies).take 5).map
        (fun c => { company := c.company_name,
                    avg_ghost_probability := c.avg_ghost_probability,
                    total_posts := c.total_posts }) }

/-! ## Claim-side recomputation and concrete data

`companyTotalSpec`/`companyGhostSpec`/`companyProbsSpec` are the claim's
"full recomputation over the current JobSearch records with company C",
written from the claim's words to be compared against what the code
maintains.  The remaining definitions are concrete states used as inputs of
witnesses and counterexamples. -/

/-- The ghost probabilities of the stored job searches of one company. -/
def companyProbsSpec (jobs : List (String × EdgeJobSearch)) (c : String) :
    List ℚ :=
  (jobs.filter (fun kv => kv.2.company == c)).map
    (fun kv => kv.2.ghost_probability)

/-- Recomputed `total_posts`: the count of stored job searches with this
company. -/
def companyTotalSpec (jobs : List (String × EdgeJobSearch)) (c : String) :
    Nat :=
  (companyProbsSpec jobs c).length

/-- Recomputed `ghost_posts`: those with `ghost_probability ≥ 0.67`. -/
def companyGhostSpec (jobs : List (String × EdgeJobSearch)) (c : String) :
    Nat :=
  (companyProbsSpec jobs c).countP (fun p => decide (mkRat 67 100 ≤ p))

/-- The stored company record's counters agree with the recomputation (the
claim's consistency, restricted to the two incrementally-maintained
counters; the remaining aggregate fields are recomputed by the code on
every save). -/
def companyCountsConsistentB (d : EdgeData) (cname : String) : Bool :=
  match alGet d.companies cname with
  | some c => (c.total_posts == companyTotalSpec d.job_searches cname)
      && (c.ghost_posts == companyGhostSpec d.job_searches cname)
  | none => (companyTotalSpec d.job_searches cname == 0)
      && (companyGhostSpec d.job_searches cname == 0)

/-- Probability bounds on a stored row, as the claims state them. -/
def probBounds (r : JobSearchRow) : Prop :=
  0 ≤ r.ghost_probability ∧ r.ghost_probability ≤ 1
    ∧ 0 ≤ r.confidence ∧ r.confidence ≤ 1

/-- An `AnalysisFilters` value carrying only the probability range. -/
def probOnlyFilters (mn mx : Option ℚ) : AnalysisFilters :=
  { platform := none, company := none, min_ghost_probability := mn,
    max_ghost_probability := mx, start_date := none, end_date := none,
    risk_level := none }

/-- A small concrete job-search row; `i` doubles as id and day. -/
def mkSampleRow (i : Nat) (gp : ℚ) : JobSearchRow :=
  { id := i, url := "u" ++ toString i, platform := "other", job_title := "t",
    company := "c", location := none, ghost_probability := gp,
    confidence := mkRat 1 2, parser_used := none, extraction_method := none,
    processing_time_ms := none, analysis_date := i }

/-- The empty relational database. -/
def emptyDBState : DBState :=
  { job_searches := [], key_factors := [], parsing_metadata := [],
    companies := [], next_search_id := 1, next_factor_id := 1,
    next_metadata_id := 1 }

/-- A database holding 25 job searches (the pagination scenario). -/
def dbState25 : DBState :=
  { emptyDBState with
    job_searches := (List.range 25).map (fun i => mkSampleRow i (mkRat 1 2)),
    next_search_id := 26 }

/-- The records of the probability-filter scenario: ghost probabilities
`0.1`, `0.5`, `0.9`. -/
def filterScenarioRows : List JobSearchRow :=
  [mkSampleRow 1 (mkRat 1 10), mkSampleRow 2 (mkRat 5 10),
   mkSampleRow 3 (mkRat 9 10)]

/-- A validated creation payload with URL `u1` (matching `mkSampleRow 1`). -/
def jdU1 : JobSearchCreate :=
  { url := "u1", platform := "other", job_title := "t", company := "c",
    location := none, ghost_probability := mkRat 1 2,
    confidence := mkRat 1 2, parser_used := none, extraction_method := none,
    processing_time_ms := none }

/-- A one-row relational database whose row has URL `u1`. -/
def dbStateU1 : DBState :=
  { emptyDBState with
    job_searches := [mkSampleRow 1 (mkRat 1 2)],
    next_search_id := 2 }

/-- Concrete FlatMap job-data input: company `A` on `linkedin`. -/
def edgeInputA : EdgeJobInput :=
  { platform := some "linkedin", job_title := some "T", company := some "A",
    location := none, parsing_metadata := none }

/-- Concrete analysis input with ghost probability `0.9`, no factors. -/
def edgeAnalysisHigh : EdgeAnalysisInput :=
  { ghost_probability := mkRat 9 10, confidence := mkRat 1 2,
    processing_time_ms := none, factors := [] }

/-- The FlatMap document after saving one analysis (URL `u`, company `A`,
ghost probability `0.9`) at instant 1 on an empty store. -/
def edgeD1 : EdgeData :=
  (save_job_analysis "u" edgeInputA edgeAnalysisHigh 1 emptyEdgeData).2

/-- The job-search record stored inside `edgeD1`. -/
def edgeJS1 : EdgeJobSearch :=
  { id := "1", url := "u", platform := "linkedin", job_title := "T",
    company := "A", location := none, ghost_probability := mkRat 9 10,
    confidence := mkRat 1 2, parser_used := "MockParser",
    extraction_method := "simulation", processing_time_ms := 0,
    analysis_date := 1, created_at := 1, updated_at := 1,
    status := "completed" }

/-- A company row with three posts (for the ranking witness). -/
def companyX : CompanyRow :=
  { company_name := "X", total_posts := 3, ghost_posts := 1,
    avg_ghost_probability := mkRat 1 2, min_ghost_probability := mkRat 1 10,
    max_ghost_probability := mkRat 9 10, risk_level := "medium" }

/-- A one-company table (for the ranking witness). -/
def companiesX : List CompanyRow := [companyX]

/-! ### Named intermediate values of `save_job_analysis`

The following definitions reproduce, verbatim, the values bound inside
`save_job_analysis` (the saved record, the updated `job_searches` map, and
the company record written back); they exist so the proofs can speak about
them by name.  That they really are those values is checked by `rfl` in
`save_job_analysis_snd_companies` / `save_job_analysis_snd_jobs` below. -/

/-- The company name used by `save_job_analysis`
(`job_data.get('company', 'Unknown Company')`). -/
def edgeCname (jdI : EdgeJobInput) : String :=
  jdI.company.getD "Unknown Company"

/-- The job-search record `save_job_analysis` builds. -/
def edgeSavedRecord (job_url : String) (jdI : EdgeJobInput)
    (an : EdgeAnalysisInput) (now : Nat) : EdgeJobSearch :=
  { id := toString now, url := job_url,
    platform := jdI.platform.getD "unknown",
    job_title := jdI.job_title.getD "Unknown Position",
    company := edgeCname jdI, location := jdI.location,
    ghost_probability := an.ghost_probability,
    confidence := an.confidence, parser_used := "MockParser",
    extraction_method := "simulation",
    processing_time_ms := an.processing_time_ms.getD 0,
    analysis_date := now, created_at := now, updated_at := now,
    status := "completed" }

/-- The `job_searches` map after the assignment, before pruning. -/
def edgeUpdatedJobs (job_url : String) (jdI : EdgeJobInput)
    (an : EdgeAnalysisInput) (now : Nat) (d : EdgeData) :
    List (String × EdgeJobSearch) :=
  alSet d.job_searches (toString now) (edgeSavedRecord job_url jdI an now)

/-- The company record `save_job_analysis` starts from: the stored one, or
the fresh initial record. -/
def edgeCompanyStart (jdI : EdgeJobInput) (now : Nat) (d : EdgeData) :
    EdgeCompany :=
  match alGet d.companies (edgeCname jdI) with
  | some c => c
  | none =>
    { company_name := edgeCname jdI, total_posts := 0, ghost_posts := 0,
      avg_ghost_probability := 0, min_ghost_probability := 1,
      max_ghost_probability := 0, first_seen := now, last_updated := now,
      platforms_seen := [], risk_level := "unknown" }

/-- The company record `save_job_analysis` writes back: counters bumped,
aggregates recomputed from the updated map. -/
def edgeCompanyUpdated (job_url : String) (jdI : EdgeJobInput)
    (an : EdgeAnalysisInput) (now : Nat) (d : EdgeData) : EdgeCompany :=
  let c0 := edgeCompanyStart jdI now d
  let c1 := { c0 with total_posts := c0.total_posts + 1,
                      platforms_seen :=
                        (c0.platforms_seen ++ [jdI.platform.getD "unknown"]).dedup }
  let c2 := if mkRat 67 100 ≤ an.ghost_probability then
              { c1 with ghost_posts := c1.ghost_posts + 1 }
            else c1
  let probs := (((edgeUpdatedJobs job_url jdI an now d).map
      (fun kv => kv.2)).filter
      (fun s => s.company == edgeCname jdI)).map
      (fun s => s.ghost_probability)
  let c3 :=
    if probs.isEmpty then c2
    else
      let avg := qDiv (qSum probs) (qOfNat probs.length)
      { c2 with avg_ghost_probability := avg,
                min_ghost_probability := (listMin? probs).getD c2.min_ghost_probability,
                max_ghost_probability := (listMax? probs).getD c2.max_ghost_probability,
                risk_level := if mkRat 67 100 ≤ avg then "high"
                              else if mkRat 34 100 ≤ avg then "medium"
                              else "low" }
  { c3 with last_updated := now }

/-! ## Helper lemmas -/

/-- `qAdd` agrees with library addition. -/
theorem qAdd_eq (a b : ℚ) : qAdd a b = a + b := by
  rw [qAdd, ← Rat.num_divInt_den a, ← Rat.num_divInt_den b,
    Rat.divInt_add_divInt _ _ (Int.natCast_ne_zero.mpr a.den_ne_zero)
      (Int.natCast_ne_zero.mpr b.den_ne_zero),
    Rat.num_divInt_den a, Rat.num_divInt_den b]

/-- `qSum` agrees with library list sum. -/
theorem qSum_eq (l : List ℚ) : qSum l = l.sum := by
  induction l with
  | nil => rfl
  | cons a t ih => simp [qSum, List.foldr_cons, qAdd_eq, List.sum_cons] at ih ⊢; rw [ih]

theorem qMinB_le_left (a b : ℚ) : qMinB a b ≤ a := by
  by_cases h : a ≤ b <;> simp [qMinB, h]
  exact le_of_not_le h

theorem qMinB_le_right (a b : ℚ) : qMinB a b ≤ b := by
  by_cases h : a ≤ b <;> simp [qMinB, h]

theorem qMinB_eq_or (a b : ℚ) : qMinB a b = a ∨ qMinB a b = b := by
  by_cases h : a ≤ b <;> simp [qMinB, h]

theorem qMaxB_le_left (a b : ℚ) : a ≤ qMaxB a b := by
  by_cases h : b ≤ a <;> simp [qMaxB, h]
  exact le_of_not_le h

theorem qMaxB_le_right (a b : ℚ) : b ≤ qMaxB a b := by
  by_cases h : b ≤ a <;> simp [qMaxB, h]

theorem qMaxB_eq_or (a b : ℚ) : qMaxB a b = a ∨ qMaxB a b = b := by
  by_cases h : b ≤ a <;> simp [qMaxB, h]

theorem listMin?_eq_none_iff {l : List ℚ} : listMin? l = none ↔ l = [] := by
  cases l <;> simp [listMin?]

theorem listMin?_mem {l : List ℚ} {m : ℚ} (h : listMin? l = some m) : m ∈ l := by
  induction l generalizing m with
  | nil => simp [listMin?] at h
  | cons a t ih =>
    simp only [listMin?] at h
    cases ht : listMin? t with
    | none => rw [ht] at h; simp at h; simp [h]
    | some mt =>
      rw [ht] at h; simp at h
      rcases qMinB_eq_or a mt with he | he
      · rw [← h, he]; exact List.mem_cons_self a t
      · rw [← h, he]; exact List.mem_cons_of_mem a (ih ht)

theorem listMin?_le {l : List ℚ} {m : ℚ} (h : listMin? l = some m) :
    ∀ x ∈ l, m ≤ x := by
  induction l generalizing m with
  | nil => simp [listMin?] at h
  | cons a t ih =>
    intro x hx
    simp only [listMin?] at h
    cases ht : listMin? t with
    | none =>
      rw [ht] at h; simp at h
      rw [listMin?_eq_none_iff.mp ht] at hx
      simp at hx; rw [← h, hx]
    | some mt =>
      rw [ht] at h; simp at h
      rcases List.mem_cons.mp hx with he | he
      · rw [← h, he]; exact qMinB_le_left a mt
      · exact le_trans (h ▸ qMinB_le_right a mt) (ih ht x he)

theorem listMin?_perm {l₁ l₂ : List ℚ} (h : l₁.Perm l₂) :
    listMin? l₁ = listMin? l₂ := by
  cases h₁ : listMin? l₁ with
  | none =>
    rw [listMin?_eq_none_iff.mp h₁] at h
    rw [listMin?_eq_none_iff.mpr h.symm.eq_nil]
  | some m₁ =>
    cases h₂ : listMin? l₂ with
    | none =>
      rw [listMin?_eq_none_iff.mp h₂] at h
      rw [h.eq_nil] at h₁
      simp [listMin?] at h₁
    | some m₂ =>
      have hm₁ : m₁ ∈ l₂ := h.mem_iff.mp (listMin?_mem h₁)
      have hm₂ : m₂ ∈ l₁ := h.mem_iff.mpr (listMin?_mem h₂)
      rw [le_antisymm (listMin?_le h₁ m₂ hm₂) (listMin?_le h₂ m₁ hm₁)]

theorem listMax?_eq_none_iff {l : List ℚ} : listMax? l = none ↔ l = [] := by
  cases l <;> simp [listMax?]

theorem listMax?_mem {l : List ℚ} {m : ℚ} (h : listMax? l = some m) : m ∈ l := by
  induction l generalizing m with
  | nil => simp [listMax?] at h
  | cons a t ih =>
    simp only [listMax?] at h
    cases ht : listMax? t with
    | none => rw [ht] at h; simp at h; simp [h]
    | some mt =>
      rw [ht] at h; simp at h
      rcases qMaxB_eq_or a mt with he | he
      · rw [← h, he]; exact List.mem_cons_self a t
      · rw [← h, he]; exact List.mem_cons_of_mem a (ih ht)

theorem listMax?_le {l : List ℚ} {m : ℚ} (h : listMax? l = some m) :
    ∀ x ∈ l, x ≤ m := by
  induction l generalizing m with
  | nil => simp [listMax?] at h
  | cons a t ih =>
    intro x hx
    simp only [listMax?] at h
    cases ht : listMax? t with
    | none =>
      rw [ht] at h; simp at h
      rw [listMax?_eq_none_iff.mp ht] at hx
      simp at hx; rw [← h, hx]
    | some mt =>
      rw [ht] at h; simp at h
      rcases List.mem_cons.mp hx with he | he
      · rw [← h, he]; exact qMaxB_le_left a mt
      · exact le_trans (ih ht x he) (h ▸ qMaxB_le_right a mt)

theorem listMax?_perm {l₁ l₂ : List ℚ} (h : l₁.Perm l₂) :
    listMax? l₁ = listMax? l₂ := by
  cases h₁ : listMax? l₁ with
  | none =>
    rw [listMax?_eq_none_iff.mp h₁] at h
    rw [listMax?_eq_none_iff.mpr h.symm.eq_nil]
  | some m₁ =>
    cases h₂ : listMax? l₂ with
    | none =>
      rw [listMax?_eq_none_iff.mp h₂] at h
      rw [h.eq_nil] at h₁
      simp [listMax?] at h₁
    | some m₂ =>
      have hm₁ : m₁ ∈ l₂ := h.mem_iff.mp (listMax?_mem h₁)
      have hm₂ : m₂ ∈ l₁ := h.mem_iff.mpr (listMax?_mem h₂)
      rw [le_antisymm (listMax?_le h₂ m₁ hm₁) (listMax?_le h₁ m₂ hm₂)]

/-- Assignment under a fresh key is an append. -/
theorem alSet_fresh {α : Type} {l : List (String × α)} {k : String} (v : α)
    (h : alHas l k = false) : alSet l k v = l ++ [(k, v)] := by
  simp [alSet, h]

/-- Skipping a non-matching head during lookup. -/
theorem alGet_cons_of_ne {α : Type} (p : String × α) (t : List (String × α))
    (k : String) (h : (p.1 == k) = false) : alGet (p :: t) k = alGet t k := by
  simp only [alGet]
  rw [List.find?_cons_of_neg _ (by simp [h])]

/-- Reading back the key just assigned. -/
theorem alGet_alSet_self {α : Type} (l : List (String × α)) (k : String)
    (v : α) : alGet (alSet l k v) k = some v := by
  induction l with
  | nil => simp [alGet, alSet, alHas]
  | cons p t ih =>
    by_cases hp : (p.1 == k) = true
    · have h1 : alHas (p :: t) k = true := by
        simp [alHas, List.any_cons, hp]
      rw [alSet, if_pos h1, List.map_cons, if_pos hp]
      simp only [alGet]
      rw [List.find?_cons_of_pos _ (by simp)]
      rfl
    · have hpf : (p.1 == k) = false := by simpa using hp
      by_cases ht : alHas t k = true
      · have h1 : alHas (p :: t) k = true := by
          simp only [alHas, List.any_cons, hpf, Bool.false_or]
          exact ht
        rw [alSet, if_pos h1, List.map_cons, if_neg hp,
          alGet_cons_of_ne _ _ _ hpf]
        rw [alSet, if_pos ht] at ih
        exact ih
      · have htf : alHas t k = false := by simpa using ht
        rw [alHas] at htf
        have h1 : alHas (p :: t) k = false := by
          simp only [alHas, List.any_cons, hpf, Bool.false_or]
          exact htf
        rw [alSet, if_neg (by simp [h1]), List.cons_append,
          alGet_cons_of_ne _ _ _ hpf]
        rw [alSet, if_neg (by simp [alHas, htf])] at ih
        exact ih

/-- `_save_all_data` stores companies untouched. -/
theorem save_all_data_companies (d : EdgeData) :
    (save_all_data d).companies = d.companies := rfl

/-- When the document fits in the window, `_save_all_data` only reorders
the job searches. -/
theorem save_all_data_perm (d : EdgeData) (h : d.job_searches.length ≤ 100) :
    (save_all_data d).job_searches.Perm d.job_searches := by
  show ((pySortBy edgeRecencyRel d.job_searches).take 100).Perm d.job_searches
  rw [List.take_of_length_le]
  · exact List.perm_insertionSort _ _
  · rw [pySortBy, List.length_insertionSort]; exact h

/-- Each probability lands in exactly one risk bucket, so the three counts
partition any list of probabilities. -/
theorem riskCounts_partition (ps : List ℚ) :
    ps.countP highRiskB + ps.countP mediumRiskB + ps.countP lowRiskB
      = ps.length := by
  induction ps with
  | nil => rfl
  | cons p t ih =>
    simp only [List.countP_cons, List.length_cons]
    by_cases hHi : mkRat 67 100 ≤ p
    · have hl : ¬ p < mkRat 34 100 :=
        not_lt.mpr (le_trans (by decide) hHi)
      have hm : ¬ p < mkRat 67 100 := not_lt.mpr hHi
      simp [highRiskB, mediumRiskB, lowRiskB, hHi, hm, hl]
      omega
    · by_cases hMed : mkRat 34 100 ≤ p
      · have hm : p < mkRat 67 100 := not_le.mp hHi
        have hl : ¬ p < mkRat 34 100 := not_lt.mpr hMed
        simp [highRiskB, mediumRiskB, lowRiskB, hHi, hMed, hm, hl]
        omega
      · have hl : p < mkRat 34 100 := not_le.mp hMed
        simp [highRiskB, mediumRiskB, lowRiskB, hHi, hMed, hl]
        omega

/-- The company-probability recomputation, stated over the function body's
map-then-filter order. -/
theorem companyProbsSpec_eq (jobs : List (String × EdgeJobSearch))
    (c : String) :
    ((jobs.map (fun kv => kv.2)).filter (fun s => s.company == c)).map
      (fun s => s.ghost_probability) = companyProbsSpec jobs c := by
  induction jobs with
  | nil => rfl
  | cons kv t ih =>
    by_cases hc : kv.2.company == c <;>
      simp [companyProbsSpec, List.filter_cons, hc] at ih ⊢ <;>
      exact ih

/-- Permutation invariance of the recomputed probability list. -/
theorem companyProbsSpec_perm {j₁ j₂ : List (String × EdgeJobSearch)}
    (c : String) (h : j₁.Perm j₂) :
    (companyProbsSpec j₁ c).Perm (companyProbsSpec j₂ c) :=
  (h.filter _).map _

/-- Appending one record of the company appends its probability. -/
theorem companyProbsSpec_append_self (jobs : List (String × EdgeJobSearch))
    (c : String) (k : String) (js : EdgeJobSearch) (hc : js.company = c) :
    companyProbsSpec (jobs ++ [(k, js)]) c
      = companyProbsSpec jobs c ++ [js.ghost_probability] := by
  simp [companyProbsSpec, List.filter_append, List.filter_cons, hc]

/-! ## Claim theorems -/

/-- Claim C3: in the statistics computation, every record with
`ghost_probability ≥ 0.67` is counted high, `[0.34, 0.67)` medium and
`< 0.34` low; the boundary values 0.67 / 0.669999 / 0.34 / 0.339999 land
in high / medium / medium / low respectively, and the three bucket counts
partition the records considered — on both the relational and the FlatMap
backend. -/
theorem C3_risk_bucket_boundaries :
    (∀ (st : DBState) (now days_back : Nat),
      (get_analysis_stats st now days_back).high_risk_count
        + (get_analysis_stats st now days_back).medium_risk_count
        + (get_analysis_stats st now days_back).low_risk_count
      = (st.job_searches.filter
          (fun r => decide (now - days_back ≤ r.analysis_date))).length)
    ∧ (∀ d : EdgeData,
      (edge_get_analysis_stats d).high_risk_count
        + (edge_get_analysis_stats d).medium_risk_count
        + (edge_get_analysis_stats d).low_risk_count
      = d.job_searches.length)
    ∧ (∀ p : ℚ, highRiskB p = true ↔ mkRat 67 100 ≤ p)
    ∧ (∀ p : ℚ, mediumRiskB p = true ↔ mkRat 34 100 ≤ p ∧ p < mkRat 67 100)
    ∧ (∀ p : ℚ, lowRiskB p = true ↔ p < mkRat 34 100)
    ∧ highRiskB (mkRat 67 100) = true
    ∧ mediumRiskB (mkRat 669999 1000000) = true
    ∧ highRiskB (mkRat 669999 1000000) = false
    ∧ mediumRiskB (mkRat 34 100) = true
    ∧ lowRiskB (mkRat 34 100) = false
    ∧ lowRiskB (mkRat 339999 1000000) = true
    ∧ mediumRiskB (mkRat 339999 1000000) = false := by
  refine ⟨?_, ?_, ?_, ?_, ?_, by decide, by decide, by decide, by decide,
    by decide, by decide, by decide⟩
  · intro st now days_back
    simp only [get_analysis_stats]
    rw [riskCounts_partition, List.length_map]
  · intro d
    by_cases h : (d.job_searches.map (fun kv => kv.2)).isEmpty
    · have hnil : d.job_searches = [] := by
        have := List.isEmpty_iff.mp h
        exact List.map_eq_nil_iff.mp this
      simp [edge_get_analysis_stats, h, hnil]
    · have hf : (d.job_searches.map (fun kv => kv.2)).isEmpty = false := by
        simpa using h
      simp only [edge_get_analysis_stats, hf, Bool.false_eq_true, if_false]
      rw [riskCounts_partition, List.length_map, List.length_map]
  · intro p; simp [highRiskB]
  · intro p; simp [mediumRiskB]
  · intro p; simp [lowRiskB]

/-- Claim C9: `detect_platform` maps hostnames containing `linkedin`,
`indeed`, `glassdoor` to those platforms (in that precedence),
careers-style URLs to `company`, and everything else to `other`; in
particular the four scenario URLs resolve as specified. -/
theorem C9_detect_platform :
    (∀ url, strContains (urlHostname url) "linkedin" = true →
      detect_platform url = "linkedin")
    ∧ (∀ url, strContains (urlHostname url) "linkedin" = false →
      strContains (urlHostname url) "indeed" = true →
      detect_platform url = "indeed")
    ∧ (∀ url, strContains (urlHostname url) "linkedin" = false →
      strContains (urlHostname url) "indeed" = false →
      strContains (urlHostname url) "glassdoor" = true →
      detect_platform url = "glassdoor")
    ∧ (∀ url, strContains (urlHostname url) "linkedin" = false →
      strContains (urlHostname url) "indeed" = false →
      strContains (urlHostname url) "glassdoor" = false →
      (strContains (urlHostname url) "careers."
        || strContains (urlPath url) "/careers"
        || strContains (urlPath url) "/jobs") = true →
      detect_platform url = "company")
    ∧ (∀ url, strContains (urlHostname url) "linkedin" = false →
      strContains (urlHostname url) "indeed" = false →
      strContains (urlHostname url) "glassdoor" = false →
      (strContains (urlHostname url) "careers."
        || strContains (urlPath url) "/careers"
        || strContains (urlPath url) "/jobs") = false →
      detect_platform url = "other")
    ∧ detect_platform "https://linkedin.com/jobs/view/1" = "linkedin"
    ∧ detect_platform "https://indeed.com/viewjob?jk=1" = "indeed"
    ∧ detect_platform "https://careers.acme.com/jobs/1" = "company"
    ∧ detect_platform "https://random.biz/posting" = "other" := by
  refine ⟨?_, ?_, ?_, ?_, ?_, by decide, by decide, by decide, by decide⟩
  · intro url h1
    simp [detect_platform, h1]
  · intro url h1 h2
    simp [detect_platform, h1, h2]
  · intro url h1 h2 h3
    simp [detect_platform, h1, h2, h3]
  · intro url h1 h2 h3 h4
    simp [detect_platform, h1, h2, h3, h4]
  · intro url h1 h2 h3 h4
    simp only [Bool.or_eq_false_iff] at h4
    simp [detect_platform, h1, h2, h3, h4.1.1, h4.1.2, h4.2]

/-- Claim C9 witness: the `company` rule applied at a concrete careers URL. -/
theorem C9_detect_platform_witness :
    detect_platform "https://example.com/jobs/1" = "company" :=
  C9_detect_platform.2.2.2.1 "https://example.com/jobs/1"
    (by decide) (by decide) (by decide) (by decide)

/-- Inverting a successful `JobSearchCreate` validation: the payload carries
the given probabilities and both lie in `[0,1]`. -/
theorem mkJobSearchCreate_bounds {url p jt c : String} {loc : Option String}
    {gp conf : ℚ} {pu em : Option String} {pt : Option Int}
    {js : JobSearchCreate}
    (h : mkJobSearchCreate url p jt c loc gp conf pu em pt = some js) :
    js.ghost_probability = gp ∧ js.confidence = conf
      ∧ 0 ≤ js.ghost_probability ∧ js.ghost_probability ≤ 1
      ∧ 0 ≤ js.confidence ∧ js.confidence ≤ 1 := by
  rw [mkJobSearchCreate] at h
  split at h
  · next hb =>
    obtain ⟨⟨⟨h1, h2⟩, h3⟩, h4⟩ := by simpa using hb
    simp only [Option.some.injEq] at h
    subst h
    exact ⟨rfl, rfl, h1, h2, h3, h4⟩
  · simp at h

/-- Claim C7: constructing a `JobSearchCreate` succeeds only when both
`ghost_probability` and `confidence` lie in `[0,1]`; out-of-range input
(for example `1.5`) fails validation before persistence, and therefore
every row persisted by `create_job_search` from validated payloads
satisfies both bounds. -/
theorem C7_probability_bounds_validation :
    (∀ (url p jt c : String) (loc : Option String) (gp conf : ℚ)
      (pu em : Option String) (pt : Option Int) (js : JobSearchCreate),
      mkJobSearchCreate url p jt c loc gp conf pu em pt = some js →
      js.ghost_probability = gp ∧ js.confidence = conf
        ∧ 0 ≤ js.ghost_probability ∧ js.ghost_probability ≤ 1
        ∧ 0 ≤ js.confidence ∧ js.confidence ≤ 1)
    ∧ (∀ (url p jt c : String) (loc : Option String) (gp conf : ℚ)
      (pu em : Option String) (pt : Option Int),
      0 ≤ gp → gp ≤ 1 → 0 ≤ conf → conf ≤ 1 →
      mkJobSearchCreate url p jt c loc gp conf pu em pt ≠ none)
    ∧ mkJobSearchCreate "u" "linkedin" "t" "c" none (mkRat 3 2) (mkRat 1 2)
        none none none = none
    ∧ mkJobSearchCreate "u" "linkedin" "t" "c" none (mkRat 1 2) (mkRat 3 2)
        none none none = none
    ∧ (∀ (st : DBState) (jd : JobSearchCreate)
      (factors : List KeyFactorCreate) (pm : Option ParsingMetadataCreate)
      (now : Nat) (url p jt c : String) (loc : Option String)
      (gp conf : ℚ) (pu em : Option String) (pt : Option Int),
      mkJobSearchCreate url p jt c loc gp conf pu em pt = some jd →
      (∀ r ∈ st.job_searches, probBounds r) →
      ∀ r ∈ (create_job_search jd factors pm now st).2.job_searches,
        probBounds r) := by
  refine ⟨?_, ?_, by decide, by decide, ?_⟩
  · intro url p jt c loc gp conf pu em pt js h
    exact mkJobSearchCreate_bounds h
  · intro url p jt c loc gp conf pu em pt h1 h2 h3 h4
    simp [mkJobSearchCreate, h1, h2, h3, h4]
  · intro st jd factors pm now url p jt c loc gp conf pu em pt hmk hall r hr
    obtain ⟨-, -, hb1, hb2, hb3, hb4⟩ := mkJobSearchCreate_bounds hmk
    simp only [create_job_search] at hr
    split at hr
    · exact hall r hr
    · rcases List.mem_append.mp hr with hin | hnew
      · exact hall r hin
      · simp only [List.mem_singleton] at hnew
        subst hnew
        exact ⟨hb1, hb2, hb3, hb4⟩

/-- Claim C7 witness: validation inverted at a concrete payload. -/
theorem C7_probability_bounds_validation_witness :
    jdU1.ghost_probability = mkRat 1 2 ∧ jdU1.confidence = mkRat 1 2
      ∧ 0 ≤ jdU1.ghost_probability ∧ jdU1.ghost_probability ≤ 1
      ∧ 0 ≤ jdU1.confidence ∧ jdU1.confidence ≤ 1 :=
  C7_probability_bounds_validation.1 "u1" "other" "t" "c" none
    (mkRat 1 2) (mkRat 1 2) none none none jdU1 (by decide)

/-- Claim C6: the probability-range filters select exactly the rows whose
ghost probability lies in the inclusive range; the `[0.1, 0.5, 0.9]`
scenario keeps exactly the `0.5` and `0.9` rows; and a filter with both
bounds given and `max < min` fails validation. -/
theorem C6_probability_range_filter :
    (∀ (rs : List JobSearchRow) (cs : List CompanyRow) (mn mx : ℚ)
      (r : JobSearchRow),
      r ∈ rs.filter (matchesFilters (probOnlyFilters (some mn) (some mx)) cs)
        ↔ r ∈ rs ∧ mn ≤ r.ghost_probability ∧ r.ghost_probability ≤ mx)
    ∧ filterScenarioRows.filter
        (matchesFilters
          (probOnlyFilters (some (mkRat 2 5)) (some (mkRat 19 20))) [])
      = [mkSampleRow 2 (mkRat 5 10), mkSampleRow 3 (mkRat 9 10)]
    ∧ (∀ (pf cf : Option String) (mn mx : ℚ) (sd ed : Option Nat)
      (rl : Option String), mx < mn →
      mkAnalysisFilters pf cf (some mn) (some mx) sd ed rl = none) := by
  refine ⟨?_, by decide, ?_⟩
  · intro rs cs mn mx r
    simp [List.mem_filter, matchesFilters, probOnlyFilters]
  · intro pf cf mn mx sd ed rl h
    simp [mkAnalysisFilters, rangeOkB, h]

/-- Claim C6 witness: the failing construction at concrete bounds. -/
theorem C6_probability_range_filter_witness :
    mkAnalysisFilters none none (some (mkRat 19 20)) (some (mkRat 2 5))
      none none none = none :=
  C6_probability_range_filter.2.2 none none (mkRat 19 20) (mkRat 2 5)
    none none none (by decide)

/-- The reported `total_count` is the number of filtered rows, whatever
page is requested. -/
theorem get_job_searches_total_count (st : DBState)
    (f : Option AnalysisFilters) (page page_size : Nat) (ob : String)
    (od : Bool) :
    (get_job_searches st f page page_size ob od).total_count
      = (match f with
         | none => st.job_searches
         | some fl => st.job_searches.filter (matchesFilters fl st.companies)).length :=
  rfl

/-- The number of items on a page: `page_size`, or whatever remains after
the 1-indexed offset. -/
theorem get_job_searches_page_len (st : DBState)
    (f : Option AnalysisFilters) (page page_size : Nat) (ob : String)
    (od : Bool) :
    (get_job_searches st f page page_size ob od).analyses.length
      = min page_size
          ((get_job_searches st f page page_size ob od).total_count
            - (page - 1) * page_size) := by
  simp only [get_job_searches, List.length_map, List.length_take,
    List.length_drop, pySortBy, List.length_insertionSort]

/-- Claim C5: `get_job_searches` pages are 1-indexed slices of size
`page_size` of the filtered sequence, `total_count` is the full filtered
count regardless of the page requested, and with 25 matching records,
`page_size = 10`, `page = 3` the call returns exactly 5 items and
`total_count = 25`. -/
theorem C5_pagination :
    (∀ (st : DBState) (f : Option AnalysisFilters) (page page_size : Nat)
      (ob : String) (od : Bool),
      (get_job_searches st f page page_size ob od).total_count
        = (match f with
           | none => st.job_searches
           | some fl =>
             st.job_searches.filter (matchesFilters fl st.companies)).length)
    ∧ (∀ (st : DBState) (f : Option AnalysisFilters) (page page_size : Nat)
      (ob : String) (od : Bool),
      (get_job_searches st f page page_size ob od).analyses.length
        = min page_size
            ((get_job_searches st f page page_size ob od).total_count
              - (page - 1) * page_size))
    ∧ (∀ (st : DBState) (ob : String) (od : Bool),
      st.job_searches.length = 25 →
      (get_job_searches st none 3 10 ob od).analyses.length = 5
        ∧ (get_job_searches st none 3 10 ob od).total_count = 25) := by
  refine ⟨fun st f page page_size ob od =>
      get_job_searches_total_count st f page page_size ob od,
    fun st f page page_size ob od =>
      get_job_searches_page_len st f page page_size ob od, ?_⟩
  intro st ob od h
  constructor
  · rw [get_job_searches_page_len, get_job_searches_total_count]
    show min 10 (st.job_searches.length - (3 - 1) * 10) = 5
    rw [h]
    rfl
  · rw [get_job_searches_total_count]
    exact h

/-- Claim C5 witness: the 25-record scenario evaluated on a concrete
database. -/
theorem C5_pagination_witness :
    (get_job_searches dbState25 none 3 10 "analysis_date" true).analyses.length = 5
      ∧ (get_job_searches dbState25 none 3 10 "analysis_date" true).total_count = 25 :=
  C5_pagination.2.2 dbState25 "analysis_date" true (by decide)

/-- Claim C10: on the relational backend, `create_job_search` with an
already-stored URL returns an existing record's id and leaves the whole
database state — job searches, key factors, parsing metadata, companies and
all counters — exactly as it was; the supplied factors and metadata are
never persisted. -/
theorem C10_duplicate_submission_frame (st : DBState) (jd : JobSearchCreate)
    (factors : List KeyFactorCreate) (pm : Option ParsingMetadataCreate)
    (now : Nat) (h : ∃ r ∈ st.job_searches, r.url = jd.url) :
    (create_job_search jd factors pm now st).2 = st
      ∧ ∃ r ∈ st.job_searches, r.url = jd.url
          ∧ (create_job_search jd factors pm now st).1 = some r.id := by
  have hany : (st.job_searches.any fun r => r.url == jd.url) = true := by
    obtain ⟨r, hr, hu⟩ := h
    exact List.any_eq_true.mpr ⟨r, hr, by simp [hu]⟩
  have hsome : (st.job_searches.find? fun r => r.url == jd.url).isSome := by
    rw [List.find?_isSome]
    obtain ⟨r, hr, hu⟩ := h
    exact ⟨r, hr, by simp [hu]⟩
  obtain ⟨r, hr⟩ := Option.isSome_iff_exists.mp hsome
  refine ⟨?_, r, List.mem_of_find?_eq_some hr, ?_, ?_⟩
  · rw [create_job_search, if_pos hany]
  · have := List.find?_some hr
    simpa using this
  · rw [create_job_search, if_pos hany]
    rw [hr]
    rfl

/-- Claim C10 witness: a repeat of URL `u1` against the one-row database,
with a key factor and metadata payload that must be discarded. -/
theorem C10_duplicate_submission_frame_witness :
    (create_job_search jdU1
      [{ factor_type := "warning", description := "d", severity := none,
         weight := none }]
      (some { raw_title := none, structured_data_found := false,
              meta_tags_count := 0, validation_results := none,
              confidence_scores := none })
      7 dbStateU1).2 = dbStateU1
      ∧ ∃ r ∈ dbStateU1.job_searches, r.url = jdU1.url
          ∧ (create_job_search jdU1
              [{ factor_type := "warning", description := "d",
                 severity := none, weight := none }]
              (some { raw_title := none, structured_data_found := false,
                      meta_tags_count := 0, validation_results := none,
                      confidence_scores := none })
              7 dbStateU1).1 = some r.id :=
  C10_duplicate_submission_frame dbStateU1 jdU1 _ _ 7 (by decide)

/-- Claim C2 counterexample: on the FlatMap backend, saving the same URL
`u` twice (clock instants 1 and 2) returns two different ids and grows the
store by two records, both holding URL `u` — `save_job_analysis` performs
no URL-uniqueness check. -/
theorem C2_idempotent_upsert_counterexample :
    (save_job_analysis "u" edgeInputA edgeAnalysisHigh 1 emptyEdgeData).1 = "1"
    ∧ (save_job_analysis "u" edgeInputA edgeAnalysisHigh 2 edgeD1).1 = "2"
    ∧ ("1" : String) ≠ "2"
    ∧ emptyEdgeData.job_searches.length = 0
    ∧ (save_job_analysis "u" edgeInputA edgeAnalysisHigh 2 edgeD1).2.job_searches.length = 2
    ∧ ((save_job_analysis "u" edgeInputA edgeAnalysisHigh 2 edgeD1).2.job_searches.filter
        (fun kv => kv.2.url == "u")).length = 2 := by
  decide

/-- Claim C2 (amended): the idempotent upsert-by-URL holds on the
relational backend — resubmitting an already-stored URL returns the first
call's id and leaves the state untouched, and any single call grows the
job-search table by at most one row.  The FlatMap backend has no
uniqueness check and creates a fresh record per call (see the
counterexample). -/
theorem C2_idempotent_upsert_amended :
    (∀ (st : DBState) (jd : JobSearchCreate)
      (factors factors' : List KeyFactorCreate)
      (pm pm' : Option ParsingMetadataCreate) (now now' : Nat),
      (st.job_searches.any fun r => r.url == jd.url) = false →
      create_job_search jd factors' pm' now'
          (create_job_search jd factors pm now st).2
        = ((create_job_search jd factors pm now st).1,
           (create_job_search jd factors pm now st).2))
    ∧ (∀ (st : DBState) (jd : JobSearchCreate)
      (factors : List KeyFactorCreate) (pm : Option ParsingMetadataCreate)
      (now : Nat),
      (create_job_search jd factors pm now st).2.job_searches.length
        ≤ st.job_searches.length + 1) := by
  constructor
  · intro st jd f f' pm pm' now now' hfresh
    have hc : ¬ ((st.job_searches.any fun r => r.url == jd.url) = true) := by
      simp [hfresh]
    unfold create_job_search
    rw [if_neg hc]
    have hany2 : (((st.job_searches ++
        [{ id := st.next_search_id, url := jd.url, platform := jd.platform,
           job_title := jd.job_title, company := jd.company,
           location := jd.location,
           ghost_probability := jd.ghost_probability,
           confidence := jd.confidence, parser_used := jd.parser_used,
           extraction_method := jd.extraction_method,
           processing_time_ms := jd.processing_time_ms,
           analysis_date := now }] : List JobSearchRow).any
        fun r => r.url == jd.url) = true) := by
      simp [List.any_append]
    rw [if_pos hany2]
    rw [List.find?_append, List.find?_eq_none.mpr (by
      intro x hx
      have := List.any_eq_false.mp hfresh x hx
      simpa using this)]
    simp [List.find?]
  · intro st jd f pm now
    by_cases hc : (st.job_searches.any fun r => r.url == jd.url) = true
    · unfold create_job_search
      rw [if_pos hc]
      exact Nat.le_succ _
    · unfold create_job_search
      rw [if_neg hc]
      simp

/-- Claim C2 witness: the amended idempotence at a concrete fresh store. -/
theorem C2_idempotent_upsert_amended_witness :
    create_job_search jdU1 [] none 6
        (create_job_search jdU1 [] none 5 emptyDBState).2
      = ((create_job_search jdU1 [] none 5 emptyDBState).1,
         (create_job_search jdU1 [] none 5 emptyDBState).2) :=
  C2_idempotent_upsert_amended.1 emptyDBState jdU1 [] [] none none 5 6
    (by decide)

/-- The ranking comparison, unfolded: strictly larger average first, equal
averages broken by post count. -/
theorem topCompaniesRel_iff (a b : CompanyRow) :
    topCompaniesRel a b = true ↔
      b.avg_ghost_probability < a.avg_ghost_probability
        ∨ (a.avg_ghost_probability = b.avg_ghost_probability
            ∧ b.total_posts ≤ a.total_posts) := by
  simp [topCompaniesRel]

/-- Claim C4 counterexample: the FlatMap backend's statistics rank a
company with a single post into `top_ghost_companies` — there is no
`total_posts >= 2` restriction on that backend. -/
theorem C4_top_companies_counterexample :
    (edge_get_analysis_stats edgeD1).top_ghost_companies.map
        (fun c => (c.company, c.total_posts)) = [("A", 1)]
    ∧ ∃ c ∈ (edge_get_analysis_stats edgeD1).top_ghost_companies,
        c.total_posts < 2 := by
  decide

/-- Claim C4 (amended): the stated ranking contract holds on the
relational backend (`DatabaseManager.get_analysis_stats`): entries come
from the companies table, carry `total_posts ≥ 2`, and are sorted by
average ghost probability descending with ties broken by post count
descending.  The FlatMap and `AnalysisService` variants apply no
minimum-posts restriction (see the counterexample). -/
theorem C4_top_companies_amended :
    (∀ (cs : List CompanyRow), ∀ c ∈ db_top_ghost_companies cs,
      2 ≤ c.total_posts ∧ c ∈ cs)
    ∧ (∀ cs : List CompanyRow,
      List.Sorted (fun a b => topCompaniesRel a b = true)
        (db_top_ghost_companies cs))
    ∧ (∀ (st : DBState) (now days_back : Nat),
      (get_analysis_stats st now days_back).top_ghost_companies
        = (db_top_ghost_companies st.companies).map (fun c =>
            { company := c.company_name,
              avg_ghost_probability := pyRound3 c.avg_ghost_probability,
              total_posts := c.total_posts, ghost_posts := c.ghost_posts })) := by
  refine ⟨?_, ?_, fun st now days_back => rfl⟩
  · intro cs c hc
    have h1 : c ∈ pySortBy topCompaniesRel
        (cs.filter (fun c => decide (2 ≤ c.total_posts))) :=
      List.take_subset _ _ hc
    have h2 : c ∈ cs.filter (fun c => decide (2 ≤ c.total_posts)) :=
      (List.perm_insertionSort _ _).mem_iff.mp h1
    have h3 := List.mem_filter.mp h2
    exact ⟨by simpa using h3.2, h3.1⟩
  · intro cs
    have htot : IsTotal CompanyRow (fun a b => topCompaniesRel a b = true) := by
      constructor
      intro a b
      rw [topCompaniesRel_iff, topCompaniesRel_iff]
      rcases lt_trichotomy a.avg_ghost_probability b.avg_ghost_probability
        with h | h | h
      · right; left; exact h
      · rcases le_total b.total_posts a.total_posts with ht | ht
        · left; right; exact ⟨h, ht⟩
        · right; right; exact ⟨h.symm, ht⟩
      · left; left; exact h
    have htr : IsTrans CompanyRow (fun a b => topCompaniesRel a b = true) := by
      constructor
      intro a b c hab hbc
      rw [topCompaniesRel_iff] at hab hbc ⊢
      rcases hab with h1 | ⟨h1, h1t⟩ <;> rcases hbc with h2 | ⟨h2, h2t⟩
      · left; exact lt_trans h2 h1
      · left; exact h2 ▸ h1
      · left; exact h1 ▸ h2
      · right; exact ⟨h1.trans h2, le_trans h2t h1t⟩
    exact List.Pairwise.sublist (List.take_sublist _ _)
      (@List.sorted_insertionSort _ _ _ htot htr _)

/-- Claim C4 witness: the relational ranking inspected at a concrete
one-company table. -/
theorem C4_top_companies_amended_witness :
    2 ≤ companyX.total_posts ∧ companyX ∈ companiesX :=
  C4_top_companies_amended.1 companiesX companyX (by decide)

/-- Claim C8: after `_save_all_data`, at most 100 job searches are stored,
every stored one comes from the input document, every retained key factor
and parsing-metadata entry has its parent job search inside the stored
window, the companies map is written in full, and every stored job search
is at least as recent as anything pruned. -/
theorem C8_retention_window (d : EdgeData) :
    (save_all_data d).job_searches.length ≤ 100
    ∧ (∀ kv ∈ (save_all_data d).job_searches, kv ∈ d.job_searches)
    ∧ (∀ kv ∈ (save_all_data d).key_factors,
        ((save_all_data d).job_searches.any fun r => r.1 == kv.2.search_id)
            = true
          ∧ kv ∈ d.key_factors)
    ∧ (∀ kv ∈ (save_all_data d).parsing_metadata,
        ((save_all_data d).job_searches.any fun r => r.1 == kv.1) = true
          ∧ kv ∈ d.parsing_metadata)
    ∧ (save_all_data d).companies = d.companies
    ∧ (∀ kv ∈ (save_all_data d).job_searches,
       ∀ dr ∈ (pySortBy edgeRecencyRel d.job_searches).drop 100,
         dr.2.analysis_date ≤ kv.2.analysis_date) := by
  refine ⟨?_, ?_, ?_, ?_, rfl, ?_⟩
  · show ((pySortBy edgeRecencyRel d.job_searches).take 100).length ≤ 100
    rw [List.length_take]
    exact min_le_left _ _
  · intro kv hkv
    have h1 : kv ∈ pySortBy edgeRecencyRel d.job_searches :=
      List.take_subset _ _ hkv
    exact (List.perm_insertionSort _ _).mem_iff.mp h1
  · intro kv hkv
    have := List.mem_filter.mp hkv
    exact ⟨this.2, this.1⟩
  · intro kv hkv
    have := List.mem_filter.mp hkv
    exact ⟨this.2, this.1⟩
  · intro kv hkv dr hdr
    have htot : IsTotal (String × EdgeJobSearch)
        (fun a b => edgeRecencyRel a b = true) := by
      constructor
      intro a b
      simp only [edgeRecencyRel, decide_eq_true_eq]
      exact le_total _ _
    have htr : IsTrans (String × EdgeJobSearch)
        (fun a b => edgeRecencyRel a b = true) := by
      constructor
      intro a b c hab hbc
      simp only [edgeRecencyRel, decide_eq_true_eq] at hab hbc ⊢
      exact le_trans hbc hab
    have hsorted : List.Sorted (fun a b => edgeRecencyRel a b = true)
        (pySortBy edgeRecencyRel d.job_searches) :=
      @List.sorted_insertionSort _ _ _ htot htr _
    have hrel := hsorted.rel_of_mem_take_of_mem_drop hkv hdr
    simpa [edgeRecencyRel] using hrel

/-- Claim C8 witness: the window inspected at the concrete one-record
document. -/
theorem C8_retention_window_witness :
    ("1", edgeJS1) ∈ edgeD1.job_searches
      ∧ (save_all_data edgeD1).companies = edgeD1.companies :=
  ⟨(C8_retention_window edgeD1).2.1 ("1", edgeJS1) (by decide),
   (C8_retention_window edgeD1).2.2.2.2.1⟩

/-- The companies map written by `save_job_analysis` is exactly the
assignment of the updated company record (checked definitionally). -/
theorem save_job_analysis_snd_companies (job_url : String)
    (jdI : EdgeJobInput) (an : EdgeAnalysisInput) (now : Nat) (d : EdgeData) :
    (save_job_analysis job_url jdI an now d).2.companies
      = alSet d.companies (edgeCname jdI)
          (edgeCompanyUpdated job_url jdI an now d) := rfl

/-- The job-search map written by `save_job_analysis` is the pruned window
over the updated map (checked definitionally). -/
theorem save_job_analysis_snd_jobs (job_url : String) (jdI : EdgeJobInput)
    (an : EdgeAnalysisInput) (now : Nat) (d : EdgeData) :
    (save_job_analysis job_url jdI an now d).2.job_searches
      = (pySortBy edgeRecencyRel
          (edgeUpdatedJobs job_url jdI an now d)).take 100 := rfl

/-- Sorting and taking a window at least as large as the list only
reorders it. -/
theorem sort_take_perm (l : List (String × EdgeJobSearch))
    (h : l.length ≤ 100) :
    ((pySortBy edgeRecencyRel l).take 100).Perm l := by
  rw [List.take_of_length_le]
  · exact List.perm_insertionSort _ _
  · rw [pySortBy, List.length_insertionSort]; exact h

/-- The written-back company record increments `total_posts` by one. -/
theorem edgeCompanyUpdated_total (job_url : String) (jdI : EdgeJobInput)
    (an : EdgeAnalysisInput) (now : Nat) (d : EdgeData) :
    (edgeCompanyUpdated job_url jdI an now d).total_posts
      = (edgeCompanyStart jdI now d).total_posts + 1 := by
  simp only [edgeCompanyUpdated]
  split <;> split <;> rfl

/-- The written-back company record increments `ghost_posts` exactly when
the new analysis scores at least 0.67. -/
theorem edgeCompanyUpdated_ghost (job_url : String) (jdI : EdgeJobInput)
    (an : EdgeAnalysisInput) (now : Nat) (d : EdgeData) :
    (edgeCompanyUpdated job_url jdI an now d).ghost_posts
      = (edgeCompanyStart jdI now d).ghost_posts
          + (if mkRat 67 100 ≤ an.ghost_probability then 1 else 0) := by
  simp only [edgeCompanyUpdated]
  by_cases hgp : mkRat 67 100 ≤ an.ghost_probability <;>
    simp only [hgp, if_true, if_false] <;> split <;> rfl

/-- When the recomputation set is nonempty (it always is, since the new
record belongs to it), the written-back record's average is the recomputed
mean and its min/max are the recomputed extrema. -/
theorem edgeCompanyUpdated_aggregates (job_url : String) (jdI : EdgeJobInput)
    (an : EdgeAnalysisInput) (now : Nat) (d : EdgeData)
    (h : companyProbsSpec (edgeUpdatedJobs job_url jdI an now d)
        (edgeCname jdI) ≠ []) :
    (edgeCompanyUpdated job_url jdI an now d).avg_ghost_probability
        = qDiv
            (qSum (companyProbsSpec (edgeUpdatedJobs job_url jdI an now d)
              (edgeCname jdI)))
            (qOfNat (companyProbsSpec (edgeUpdatedJobs job_url jdI an now d)
              (edgeCname jdI)).length)
      ∧ listMin? (companyProbsSpec (edgeUpdatedJobs job_url jdI an now d)
            (edgeCname jdI))
          = some (edgeCompanyUpdated job_url jdI an now d).min_ghost_probability
      ∧ listMax? (companyProbsSpec (edgeUpdatedJobs job_url jdI an now d)
            (edgeCname jdI))
          = some (edgeCompanyUpdated job_url jdI an now d).max_ghost_probability := by
  obtain ⟨m, hm⟩ : ∃ m, listMin? (companyProbsSpec
      (edgeUpdatedJobs job_url jdI an now d) (edgeCname jdI)) = some m := by
    cases hm0 : listMin? (companyProbsSpec
        (edgeUpdatedJobs job_url jdI an now d) (edgeCname jdI)) with
    | none => exact absurd (listMin?_eq_none_iff.mp hm0) h
    | some m => exact ⟨m, rfl⟩
  obtain ⟨x, hx⟩ : ∃ x, listMax? (companyProbsSpec
      (edgeUpdatedJobs job_url jdI an now d) (edgeCname jdI)) = some x := by
    cases hx0 : listMax? (companyProbsSpec
        (edgeUpdatedJobs job_url jdI an now d) (edgeCname jdI)) with
    | none => exact absurd (listMax?_eq_none_iff.mp hx0) h
    | some x => exact ⟨x, rfl⟩
  have hie : (companyProbsSpec (edgeUpdatedJobs job_url jdI an now d)
      (edgeCname jdI)).isEmpty = false := by
    simpa [List.isEmpty_iff] using h
  simp only [edgeCompanyUpdated, companyProbsSpec_eq]
  rw [if_neg (by simp [hie])]
  refine ⟨rfl, ?_, ?_⟩
  · rw [hm]; rfl
  · rw [hx]; rfl

/-- Under the pre-consistency hypothesis, the starting company record's
counters are the recomputation over the pre-state. -/
theorem edgeCompanyStart_counts (jdI : EdgeJobInput) (now : Nat)
    (d : EdgeData)
    (hcons : companyCountsConsistentB d (edgeCname jdI) = true) :
    (edgeCompanyStart jdI now d).total_posts
        = companyTotalSpec d.job_searches (edgeCname jdI)
      ∧ (edgeCompanyStart jdI now d).ghost_posts
        = companyGhostSpec d.job_searches (edgeCname jdI) := by
  unfold companyCountsConsistentB at hcons
  unfold edgeCompanyStart
  cases hg : alGet d.companies (edgeCname jdI) with
  | some c =>
    rw [hg] at hcons
    simp only [Bool.and_eq_true, beq_iff_eq] at hcons
    exact hcons
  | none =>
    rw [hg] at hcons
    simp only [Bool.and_eq_true, beq_iff_eq] at hcons
    exact ⟨hcons.1.symm, hcons.2.symm⟩

/-- Claim C1 counterexample: create one analysis (company `A`, probability
0.9) and delete it; the delete succeeds, yet the stored Company record for
`A` still says `total_posts = 1` while a full recomputation over the
current JobSearch records gives 0 — `delete_analysis` never touches the
companies map. -/
theorem C1_aggregate_consistency_counterexample :
    (delete_analysis "1" 2 edgeD1).1 = true
    ∧ (alGet ((delete_analysis "1" 2 edgeD1).2).companies "A").map
        (fun c => c.total_posts) = some 1
    ∧ companyTotalSpec ((delete_analysis "1" 2 edgeD1).2).job_searches "A"
        = 0 := by
  decide

/-- Claim C1 (amended): on the FlatMap backend, after a `save_job_analysis`
whose id is fresh, whose updated collection fits the 100-record window and
whose pre-state counters were consistent, the stored Company record equals
the full recomputation over the current JobSearch records (count, ghost
count, mean, min, max).  After `delete_analysis` the companies map is
unchanged, so the recomputation property fails after deletes (see the
counterexample). -/
theorem C1_aggregate_consistency_amended :
    (∀ (job_url : String) (jdI : EdgeJobInput) (an : EdgeAnalysisInput)
      (now : Nat) (d : EdgeData),
      alHas d.job_searches (toString now) = false →
      d.job_searches.length + 1 ≤ 100 →
      companyCountsConsistentB d (edgeCname jdI) = true →
      ∃ c, alGet ((save_job_analysis job_url jdI an now d).2).companies
              (edgeCname jdI) = some c
        ∧ c.total_posts
            = companyTotalSpec
                ((save_job_analysis job_url jdI an now d).2).job_searches
                (edgeCname jdI)
        ∧ c.ghost_posts
            = companyGhostSpec
                ((save_job_analysis job_url jdI an now d).2).job_searches
                (edgeCname jdI)
        ∧ c.avg_ghost_probability
            = qDiv
                (qSum (companyProbsSpec
                  ((save_job_analysis job_url jdI an now d).2).job_searches
                  (edgeCname jdI)))
                (qOfNat (companyProbsSpec
                  ((save_job_analysis job_url jdI an now d).2).job_searches
                  (edgeCname jdI)).length)
        ∧ listMin? (companyProbsSpec
              ((save_job_analysis job_url jdI an now d).2).job_searches
              (edgeCname jdI))
            = some c.min_ghost_probability
        ∧ listMax? (companyProbsSpec
              ((save_job_analysis job_url jdI an now d).2).job_searches
              (edgeCname jdI))
            = some c.max_ghost_probability)
    ∧ (∀ (aid : String) (now : Nat) (d : EdgeData),
      ((delete_analysis aid now d).2).companies = d.companies) := by
  constructor
  · intro job_url jdI an now d hfresh hlen hcons
    have hjobs : edgeUpdatedJobs job_url jdI an now d
        = d.job_searches
            ++ [(toString now, edgeSavedRecord job_url jdI an now)] := by
      rw [edgeUpdatedJobs]
      exact alSet_fresh _ hfresh
    have hcn : (edgeSavedRecord job_url jdI an now).company = edgeCname jdI :=
      rfl
    have hprobsU : companyProbsSpec (edgeUpdatedJobs job_url jdI an now d)
        (edgeCname jdI)
        = companyProbsSpec d.job_searches (edgeCname jdI)
            ++ [an.ghost_probability] := by
      rw [hjobs, companyProbsSpec_append_self _ _ _ _ hcn]
      rfl
    have hne : companyProbsSpec (edgeUpdatedJobs job_url jdI an now d)
        (edgeCname jdI) ≠ [] := by
      rw [hprobsU]; simp
    have hlen' : (edgeUpdatedJobs job_url jdI an now d).length ≤ 100 := by
      rw [hjobs, List.length_append]
      simpa using hlen
    have hpermR := sort_take_perm _ hlen'
    have hpp := companyProbsSpec_perm (edgeCname jdI) hpermR
    obtain ⟨havg, hmin, hmax⟩ :=
      edgeCompanyUpdated_aggregates job_url jdI an now d hne
    obtain ⟨hst, hsg⟩ := edgeCompanyStart_counts jdI now d hcons
    refine ⟨edgeCompanyUpdated job_url jdI an now d, ?_, ?_, ?_, ?_, ?_, ?_⟩
    · rw [save_job_analysis_snd_companies]
      exact alGet_alSet_self _ _ _
    · rw [save_job_analysis_snd_jobs, edgeCompanyUpdated_total, hst]
      simp only [companyTotalSpec]
      rw [hpp.length_eq, hprobsU, List.length_append]
      rfl
    · rw [save_job_analysis_snd_jobs, edgeCompanyUpdated_ghost, hsg]
      simp only [companyGhostSpec]
      rw [List.Perm.countP_eq _ hpp, hprobsU, List.countP_append]
      by_cases hgp : mkRat 67 100 ≤ an.ghost_probability <;>
        simp [List.countP_cons, hgp]
    · rw [save_job_analysis_snd_jobs, havg]
      have hs : qSum (companyProbsSpec
          ((pySortBy edgeRecencyRel
            (edgeUpdatedJobs job_url jdI an now d)).take 100)
          (edgeCname jdI))
          = qSum (companyProbsSpec (edgeUpdatedJobs job_url jdI an now d)
              (edgeCname jdI)) := by
        rw [qSum_eq, qSum_eq]
        exact hpp.sum_eq
      rw [hs, hpp.length_eq]
    · rw [save_job_analysis_snd_jobs, listMin?_perm hpp]
      exact hmin
    · rw [save_job_analysis_snd_jobs, listMax?_perm hpp]
      exact hmax
  · intro aid now d
    by_cases h : alHas d.job_searches aid = true
    · unfold delete_analysis
      rw [if_neg (by simp [h])]
      rw [save_all_data_companies]
    · have hf : alHas d.job_searches aid = false := by simpa using h
      unfold delete_analysis
      rw [if_pos (by simp [hf])]

/-- Claim C1 witness: the amended consistency applied to a second save
(company `A` again, instant 3) on the one-record document. -/
theorem C1_aggregate_consistency_amended_witness :
    ∃ c, alGet ((save_job_analysis "u2" edgeInputA edgeAnalysisHigh 3
            edgeD1).2).companies (edgeCname edgeInputA) = some c
      ∧ c.total_posts
          = companyTotalSpec
              ((save_job_analysis "u2" edgeInputA edgeAnalysisHigh 3
                edgeD1).2).job_searches (edgeCname edgeInputA)
      ∧ c.ghost_posts
          = companyGhostSpec
              ((save_job_analysis "u2" edgeInputA edgeAnalysisHigh 3
                edgeD1).2).job_searches (edgeCname edgeInputA)
      ∧ c.avg_ghost_probability
          = qDiv
              (qSum (companyProbsSpec
                ((save_job_analysis "u2" edgeInputA edgeAnalysisHigh 3
                  edgeD1).2).job_searches (edgeCname edgeInputA)))
              (qOfNat (companyProbsSpec
                ((save_job_analysis "u2" edgeInputA edgeAnalysisHigh 3
                  edgeD1).2).job_searches (edgeCname edgeInputA)).length)
      ∧ listMin? (companyProbsSpec
            ((save_job_analysis "u2" edgeInputA edgeAnalysisHigh 3
              edgeD1).2).job_searches (edgeCname edgeInputA))
          = some c.min_ghost_probability
      ∧ listMax? (companyProbsSpec
            ((save_job_analysis "u2" edgeInputA edgeAnalysisHigh 3
              edgeD1).2).job_searches (edgeCname edgeInputA))
          = some c.max_ghost_probability :=
  C1_aggregate_consistency_amended.1 "u2" edgeInputA edgeAnalysisHigh 3
    edgeD1 (by decide) (by decide) (by decide)

/-- Claim C3 witness: the high-bucket characterization applied at 0.7. -/
theorem C3_risk_bucket_boundaries_witness : highRiskB (mkRat 7 10) = true :=
  (C3_risk_bucket_boundaries.2.2.1 (mkRat 7 10)).mpr (by decide)
